import Mathlib

set_option maxHeartbeats 1000000

/-!
Shallow embedding of `src/pdb2sql/transform.py` (rigid-body transformations
of molecular coordinates) together with the accessor protocol it relies on.

Coordinates are modelled over the reals: a numpy `(n, 3)` array of xyz rows
becomes a `List V3`, a `3 x 3` numpy matrix becomes `M3`, and `np.dot(R,
(xyz - c).T).T + c` becomes a pointwise map of `fun p => R.mulVec (p - c) + c`.
Python runtime failures (NameError, numpy shape errors) are modelled with
`Except PyError`.
-/

/-- A 3-component real coordinate vector: one row `(x, y, z)` of the numpy
coordinate array. -/
@[ext]
structure V3 where
  x : ℝ
  y : ℝ
  z : ℝ

instance : Zero V3 := ⟨⟨0, 0, 0⟩⟩

instance : Add V3 := ⟨fun a b => ⟨a.x + b.x, a.y + b.y, a.z + b.z⟩⟩

instance : Sub V3 := ⟨fun a b => ⟨a.x - b.x, a.y - b.y, a.z - b.z⟩⟩

instance : Inhabited V3 := ⟨⟨0, 0, 0⟩⟩

/-- Scalar multiple of a vector by a natural number (used to state mean facts). -/
def V3.nsmul (n : ℕ) (v : V3) : V3 := ⟨(n : ℝ) * v.x, (n : ℝ) * v.y, (n : ℝ) * v.z⟩

/-- Squared Euclidean norm of a vector. -/
def normSq (v : V3) : ℝ := v.x ^ 2 + v.y ^ 2 + v.z ^ 2

/-- Euclidean distance between two points. -/
noncomputable def eucDist (a b : V3) : ℝ := Real.sqrt (normSq (a - b))

/-- Sum of a list of vectors (componentwise). -/
def vsum : List V3 → V3
  | [] => 0
  | p :: t => p + vsum t

/-- A real 3 x 3 matrix, stored entrywise (row-major). -/
structure M3 where
  a00 : ℝ
  a01 : ℝ
  a02 : ℝ
  a10 : ℝ
  a11 : ℝ
  a12 : ℝ
  a20 : ℝ
  a21 : ℝ
  a22 : ℝ

/-- Matrix-vector product, modelling `np.dot(m, v)` for a single column. -/
def M3.mulVec (m : M3) (v : V3) : V3 :=
  ⟨m.a00 * v.x + m.a01 * v.y + m.a02 * v.z,
   m.a10 * v.x + m.a11 * v.y + m.a12 * v.z,
   m.a20 * v.x + m.a21 * v.y + m.a22 * v.z⟩

/-- Matrix product, modelling `np.dot(m, n)` for two 3 x 3 matrices. -/
def M3.mul (m n : M3) : M3 :=
  ⟨m.a00 * n.a00 + m.a01 * n.a10 + m.a02 * n.a20,
   m.a00 * n.a01 + m.a01 * n.a11 + m.a02 * n.a21,
   m.a00 * n.a02 + m.a01 * n.a12 + m.a02 * n.a22,
   m.a10 * n.a00 + m.a11 * n.a10 + m.a12 * n.a20,
   m.a10 * n.a01 + m.a11 * n.a11 + m.a12 * n.a21,
   m.a10 * n.a02 + m.a11 * n.a12 + m.a12 * n.a22,
   m.a20 * n.a00 + m.a21 * n.a10 + m.a22 * n.a20,
   m.a20 * n.a01 + m.a21 * n.a11 + m.a22 * n.a21,
   m.a20 * n.a02 + m.a21 * n.a12 + m.a22 * n.a22⟩

/-- Models `np.mean(xyz, 0)`: the per-coordinate arithmetic mean of the rows.
On an empty array numpy produces NaN (with a runtime warning), not a defined
error; the NaN outcome is modelled as `none`. -/
noncomputable def npMean0 : List V3 → Option V3
  | [] => none
  | p :: t =>
    let s := vsum (p :: t)
    let n : ℝ := ((p :: t).length : ℝ)
    some ⟨s.x / n, s.y / n, s.z / n⟩

/-- Models `np.mean(xyz)` with no axis argument: the scalar mean of all `3 n`
entries of the flattened `(n, 3)` array. NaN on an empty array, modelled as
`none`. -/
noncomputable def npMeanAll : List V3 → Option ℝ
  | [] => none
  | p :: t =>
    let s := vsum (p :: t)
    some ((s.x + s.y + s.z) / (3 * ((p :: t).length : ℝ)))

/-- The 3 x 3 matrix literal built inside `rot_xyz_around_axis` (transform.py
lines 103-111), with `ct = cos angle`, `st = sin angle` and axis components
`ux, uy, uz` taken as arguments. -/
def rodriguesMat (ct st ux uy uz : ℝ) : M3 :=
  ⟨ct + ux ^ 2 * (1 - ct), ux * uy * (1 - ct) - uz * st, ux * uz * (1 - ct) + uy * st,
   uy * ux * (1 - ct) + uz * st, ct + uy ^ 2 * (1 - ct), uy * uz * (1 - ct) - ux * st,
   uz * ux * (1 - ct) - uy * st, uz * uy * (1 - ct) + ux * st, ct + uz ^ 2 * (1 - ct)⟩

/-- Embedding of `rot_xyz_around_axis(xyz, axis, angle, center=None)`
(transform.py lines 79-114): resolve the center (default `np.mean(xyz, 0)`),
build the rotation matrix from `cos`/`sin` of the angle and the axis
components, and return `np.dot(rot_mat, (xyz - center).T).T + center`.
`none` is the undefined (NaN-centroid) outcome on an empty default-centered
input. -/
noncomputable def rot_xyz_around_axis (xyz : List V3) (axis : V3) (angle : ℝ)
    (center : Option V3) : Option (List V3) :=
  let resolved := match center with
    | none => npMean0 xyz
    | some c => some c
  match resolved with
  | none => none
  | some c =>
    let ct := Real.cos angle
    let st := Real.sin angle
    let m := rodriguesMat ct st axis.x axis.y axis.z
    some (xyz.map fun p => m.mulVec (p - c) + c)

/-- Embedding of `_rotation_euler(xyz, alpha, beta, gamma)` (transform.py
lines 117-136): elemental matrices `rx`, `ry`, `rz` composed as
`np.dot(rz, np.dot(ry, rx))`, applied about `np.mean(xyz, 0)`. -/
noncomputable def _rotation_euler (xyz : List V3) (alpha beta gamma : ℝ) :
    Option (List V3) :=
  let ca := Real.cos alpha
  let sa := Real.sin alpha
  let cb := Real.cos beta
  let sb := Real.sin beta
  let cg := Real.cos gamma
  let sg := Real.sin gamma
  match npMean0 xyz with
  | none => none
  | some xyz0 =>
    let rx : M3 := ⟨1, 0, 0, 0, ca, -sa, 0, sa, ca⟩
    let ry : M3 := ⟨cb, 0, sb, 0, 1, 0, -sb, 0, cb⟩
    let rz : M3 := ⟨cg, -sg, 0, sg, cg, 0, 0, 0, 1⟩
    let m := rz.mul (ry.mul rx)
    some (xyz.map fun p => m.mulVec (p - xyz0) + xyz0)

/-- Embedding of `rotation_matrix(xyz, rot_mat, center=True)` (transform.py
lines 139-144). Note the source computes `xyz0 = np.mean(xyz)` with no axis
argument: a single scalar (the grand mean of all entries), broadcast over
every component in `xyz - xyz0` and `+ xyz0`. -/
noncomputable def rotation_matrix (xyz : List V3) (rot : M3) (center : Bool) :
    Option (List V3) :=
  if center then
    match npMeanAll xyz with
    | none => none
    | some g => some (xyz.map fun p => rot.mulVec (p - V3.mk g g g) + V3.mk g g g)
  else
    some (xyz.map fun p => rot.mulVec p)

/-- Python runtime outcomes observed at the transform layer. -/
inductive PyError where
  /-- `NameError: name 'angle' is not defined`, raised by `get_rot_axis_angle`
  at `return axis, angle` (transform.py line 34): no `angle` is bound in the
  function body. -/
  | nameErrorAngle
  /-- `NameError: name '_rotation_matrix' is not defined`, raised by `rot_mat`
  (transform.py line 73): the module defines `rotation_matrix`, not
  `_rotation_matrix`. -/
  | nameErrorRotationMatrix
  /-- A generic numpy `ValueError` (shape / broadcast failure), e.g.
  `np.dot` of a `(3, 3)` matrix with the degenerate `(0,)` array read from an
  empty selection, after the empty mean has already produced NaN. -/
  | npShapeError
  /-- Modelled from the spec: the defined "empty selection" error that section
  7 of the spec demands for a selection matching zero rows. No code path of
  transform.py produces it. -/
  | emptySelection
  deriving DecidableEq

/-- Modelled from the spec: the Coordinate Accessor's read
(`db.get('x,y,z', **kwargs)`; pdb2sqlcore is outside the repository slice).
Returns the rows whose index satisfies the selection, in storage order.
Recursion carries the current row index. -/
def dbGetAux (sel : ℕ → Bool) : ℕ → List V3 → List V3
  | _, [] => []
  | i, r :: rs => if sel i then r :: dbGetAux sel (i + 1) rs else dbGetAux sel (i + 1) rs

/-- Read of the accessor: rows matching the selection, in order. -/
def dbGet (rows : List V3) (sel : ℕ → Bool) : List V3 := dbGetAux sel 0 rows

/-- Modelled from the spec: the Coordinate Accessor's write
(`db.update('x,y,z', xyz, **kwargs)`): overwrite the selected rows, in order,
with the given new rows, leaving non-selected rows untouched. -/
def dbUpdateAux (sel : ℕ → Bool) : ℕ → List V3 → List V3 → List V3
  | _, [], _ => []
  | i, r :: rs, new =>
    if sel i then
      match new with
      | [] => r :: dbUpdateAux sel (i + 1) rs []
      | q :: qs => q :: dbUpdateAux sel (i + 1) rs qs
    else
      r :: dbUpdateAux sel (i + 1) rs new

/-- Write of the accessor: replace the selected rows in order. -/
def dbUpdate (rows : List V3) (sel : ℕ → Bool) (new : List V3) : List V3 :=
  dbUpdateAux sel 0 rows new

/-- Embedding of `get_rot_axis_angle(seed=None)` (transform.py lines 11-34).
The numpy RNG is modelled as a stream of uniform draws: `seedStream s` is the
deterministic stream installed by `np.random.seed(s)`, `rng` the ambient
stream used when no seed is given. The body computes `u1, u2`, `teta`, `phi`
and the axis exactly as the source, then `return axis, angle` raises
`NameError`: no `angle` is defined in the function (the line
`angle = 2 * np.pi * np.random.rand()` sits in `rot_mat`, lines 75-76). -/
noncomputable def get_rot_axis_angle (seedStream : ℤ → ℕ → ℝ) (rng : ℕ → ℝ)
    (seed : Option ℤ) : Except PyError (V3 × ℝ) :=
  let s := match seed with
    | some sd => seedStream sd
    | none => rng
  let u1 := s 0
  let u2 := s 1
  let teta := Real.arccos (2 * u1 - 1)
  let phi := 2 * Real.pi * u2
  let axis : V3 := ⟨Real.sin teta * Real.cos phi,
                    Real.sin teta * Real.sin phi,
                    Real.cos teta⟩
  let _ := axis
  Except.error PyError.nameErrorAngle

/-- Embedding of `translation(db, vect, **kwargs)` (transform.py lines 37-40):
read the selected rows, add `vect` to each, write back through the same
selection. On an empty selection the read is the `(0,)`-shaped `np.array([])`
and `xyz += vect` fails to broadcast against the 3-vector. -/
noncomputable def translation (rows : List V3) (sel : ℕ → Bool) (vect : V3) :
    Except PyError (List V3) :=
  match dbGet rows sel with
  | [] => Except.error PyError.npShapeError
  | _ :: _ => Except.ok (dbUpdate rows sel ((dbGet rows sel).map fun p => p + vect))

/-- Embedding of `rot_axis(db, axis, angle, **kwargs)` (transform.py lines
43-46): read, rotate with `rot_xyz_around_axis` (default center), write back.
On an empty selection the default centroid is NaN and the subsequent
`np.dot` fails on the degenerate shape, before any write. -/
noncomputable def rot_axis (rows : List V3) (sel : ℕ → Bool) (axis : V3)
    (angle : ℝ) : Except PyError (List V3) :=
  match rot_xyz_around_axis (dbGet rows sel) axis angle none with
  | none => Except.error PyError.npShapeError
  | some out => Except.ok (dbUpdate rows sel out)

/-- Embedding of `rot_euler(db, alpha, beta, gamma, **kwargs)` (transform.py
lines 49-61): read, rotate with `_rotation_euler`, write back. Same empty
selection behaviour as `rot_axis`. -/
noncomputable def rot_euler (rows : List V3) (sel : ℕ → Bool)
    (alpha beta gamma : ℝ) : Except PyError (List V3) :=
  match _rotation_euler (dbGet rows sel) alpha beta gamma with
  | none => Except.error PyError.npShapeError
  | some out => Except.ok (dbUpdate rows sel out)

/-- Embedding of `rot_mat(db, mat, **kwargs)` (transform.py lines 64-76): the
read succeeds, but line 73 evaluates the free name `_rotation_matrix` (the
module only defines `rotation_matrix`), so the call raises `NameError` before
any rotation or write happens. -/
noncomputable def rot_mat (rows : List V3) (sel : ℕ → Bool) (m : M3) :
    Except PyError (List V3) :=
  let xyz := dbGet rows sel
  let _ := xyz
  let _ := m
  Except.error PyError.nameErrorRotationMatrix

/-- Modelled from the spec: the per-coordinate arithmetic mean (centroid) of a
point set, as the spec's phrase "arithmetic per-coordinate mean (centroid)"
reads. Stated for comparison against the code's `npMean0`. -/
noncomputable def specCentroid (xyz : List V3) : V3 :=
  ⟨(xyz.map V3.x).sum / (xyz.length : ℝ),
   (xyz.map V3.y).sum / (xyz.length : ℝ),
   (xyz.map V3.z).sum / (xyz.length : ℝ)⟩

/-- Modelled from the spec: the Rodrigues matrix exactly as the spec's section
4.2 block writes it, with `c = cos angle`, `s = sin angle`. Stated for
comparison against the matrix the code builds. -/
noncomputable def specRodrigues (axis : V3) (angle : ℝ) : M3 :=
  let c := Real.cos angle
  let s := Real.sin angle
  ⟨c + axis.x ^ 2 * (1 - c), axis.x * axis.y * (1 - c) - axis.z * s,
     axis.x * axis.z * (1 - c) + axis.y * s,
   axis.y * axis.x * (1 - c) + axis.z * s, c + axis.y ^ 2 * (1 - c),
     axis.y * axis.z * (1 - c) - axis.x * s,
   axis.z * axis.x * (1 - c) - axis.y * s, axis.z * axis.y * (1 - c) + axis.x * s,
     c + axis.z ^ 2 * (1 - c)⟩

/-- The elemental x-rotation matrix of `_rotation_euler` (transform.py line
128), named so the Euler composition order can be stated. -/
noncomputable def rxMat (alpha : ℝ) : M3 :=
  ⟨1, 0, 0, 0, Real.cos alpha, -Real.sin alpha, 0, Real.sin alpha, Real.cos alpha⟩

/-- The elemental y-rotation matrix of `_rotation_euler` (transform.py line
129). -/
noncomputable def ryMat (beta : ℝ) : M3 :=
  ⟨Real.cos beta, 0, Real.sin beta, 0, 1, 0, -Real.sin beta, 0, Real.cos beta⟩

/-- The elemental z-rotation matrix of `_rotation_euler` (transform.py line
130). -/
noncomputable def rzMat (gamma : ℝ) : M3 :=
  ⟨Real.cos gamma, -Real.sin gamma, 0, Real.sin gamma, Real.cos gamma, 0, 0, 0, 1⟩

/-- A concrete proper rotation matrix (90 degrees about the z axis), used to
evaluate the explicit-matrix kernel on concrete points. -/
def demoRotZ : M3 := ⟨0, -1, 0, 1, 0, 0, 0, 0, 1⟩

/-- Five concrete storage rows. -/
def rows5 : List V3 := [⟨1, 0, 0⟩, ⟨2, 0, 0⟩, ⟨3, 0, 0⟩, ⟨4, 0, 0⟩, ⟨5, 0, 0⟩]

/-- The all-rows selection. -/
def selTrue : ℕ → Bool := fun _ => true

/-- A concrete three-point set whose centroid is the origin and which contains
both probe points of the spec's Euler test. -/
def demoTri : List V3 := [⟨1, 0, 0⟩, ⟨0, 1, 0⟩, ⟨-1, -1, 0⟩]

/-! ## Basic algebraic lemmas about the embedding -/

@[simp] theorem V3.add_x (a b : V3) : (a + b).x = a.x + b.x := rfl

@[simp] theorem V3.add_y (a b : V3) : (a + b).y = a.y + b.y := rfl

@[simp] theorem V3.add_z (a b : V3) : (a + b).z = a.z + b.z := rfl

@[simp] theorem V3.sub_x (a b : V3) : (a - b).x = a.x - b.x := rfl

@[simp] theorem V3.sub_y (a b : V3) : (a - b).y = a.y - b.y := rfl

@[simp] theorem V3.sub_z (a b : V3) : (a - b).z = a.z - b.z := rfl

@[simp] theorem V3.zero_x : (0 : V3).x = 0 := rfl

@[simp] theorem V3.zero_y : (0 : V3).y = 0 := rfl

@[simp] theorem V3.zero_z : (0 : V3).z = 0 := rfl

@[simp] theorem V3.nsmul_x (n : ℕ) (v : V3) : (V3.nsmul n v).x = (n : ℝ) * v.x := rfl

@[simp] theorem V3.nsmul_y (n : ℕ) (v : V3) : (V3.nsmul n v).y = (n : ℝ) * v.y := rfl

@[simp] theorem V3.nsmul_z (n : ℕ) (v : V3) : (V3.nsmul n v).z = (n : ℝ) * v.z := rfl

@[simp] theorem M3.mulVec_x (m : M3) (v : V3) :
    (m.mulVec v).x = m.a00 * v.x + m.a01 * v.y + m.a02 * v.z := rfl

@[simp] theorem M3.mulVec_y (m : M3) (v : V3) :
    (m.mulVec v).y = m.a10 * v.x + m.a11 * v.y + m.a12 * v.z := rfl

@[simp] theorem M3.mulVec_z (m : M3) (v : V3) :
    (m.mulVec v).z = m.a20 * v.x + m.a21 * v.y + m.a22 * v.z := rfl

theorem M3.mul_mulVec (a b : M3) (v : V3) :
    (a.mul b).mulVec v = a.mulVec (b.mulVec v) := by
  ext <;> simp [M3.mul] <;> ring

/-! ## Claims about the runtime errors of the transform layer -/

/-- Claim C1: the spec says the rotation sampler always succeeds for any
optional seed and returns a unit axis with an independent uniform angle. The
code instead raises `NameError` on every call: `get_rot_axis_angle` returns
the name `angle` without ever binding it (the `angle = 2 * np.pi *
np.random.rand()` line sits in `rot_mat`). This theorem evaluates the
embedded function: for every RNG state and every optional seed the call
errors and never produces a pair. -/
theorem claim_C1_sampler_always_errors (seedStream : ℤ → ℕ → ℝ) (rng : ℕ → ℝ)
    (seed : Option ℤ) :
    get_rot_axis_angle seedStream rng seed = Except.error PyError.nameErrorAngle ∧
    ∀ pair : V3 × ℝ, get_rot_axis_angle seedStream rng seed ≠ Except.ok pair := by
  refine ⟨rfl, fun pair h => ?_⟩
  rw [show get_rot_axis_angle seedStream rng seed =
    Except.error PyError.nameErrorAngle from rfl] at h
  exact Except.noConfusion h

/-- Claim C7: the spec says two invocations with the same seed both succeed
and agree. In the code neither invocation succeeds: both raise the same
`NameError`, whatever ambient RNG state each one starts from. -/
theorem claim_C7_seeded_calls_never_succeed (seedStream : ℤ → ℕ → ℝ)
    (rng rng' : ℕ → ℝ) (sd : ℤ) :
    get_rot_axis_angle seedStream rng (some sd) = Except.error PyError.nameErrorAngle ∧
    get_rot_axis_angle seedStream rng' (some sd) = Except.error PyError.nameErrorAngle ∧
    ∀ pair : V3 × ℝ, get_rot_axis_angle seedStream rng (some sd) ≠ Except.ok pair := by
  refine ⟨rfl, rfl, fun pair h => ?_⟩
  rw [show get_rot_axis_angle seedStream rng (some sd) =
    Except.error PyError.nameErrorAngle from rfl] at h
  exact Except.noConfusion h

/-- Claim C2: the spec says the explicit-matrix rotation returns
`R (p - center) + center` with the per-coordinate centroid as default center.
The code diverges twice: `rot_mat` calls the undefined name
`_rotation_matrix` and so raises `NameError` on every input, and
`rotation_matrix` itself centers on `np.mean(xyz)` (the scalar grand mean of
all entries), not the per-coordinate centroid. At the concrete two-point set
`{(0,0,0), (2,0,0)}` with a 90-degree z rotation the code's kernel yields
`[(2/3,0,0), (2/3,2,0)]` while the claimed centroid formula yields
`[(1,-1,0), (1,1,0)]`. -/
theorem claim_C2_matrix_kernel_diverges :
    (∀ (rows : List V3) (sel : ℕ → Bool) (m : M3),
      rot_mat rows sel m = Except.error PyError.nameErrorRotationMatrix) ∧
    rotation_matrix [⟨0, 0, 0⟩, ⟨2, 0, 0⟩] demoRotZ true =
      some [⟨2 / 3, 0, 0⟩, ⟨2 / 3, 2, 0⟩] ∧
    specCentroid [⟨0, 0, 0⟩, ⟨2, 0, 0⟩] = ⟨1, 0, 0⟩ ∧
    ([⟨2 / 3, 0, 0⟩, ⟨2 / 3, 2, 0⟩] : List V3) ≠
      [⟨0, 0, 0⟩, ⟨2, 0, 0⟩].map
        (fun p => demoRotZ.mulVec (p - ⟨1, 0, 0⟩) + ⟨1, 0, 0⟩) := by
  refine ⟨fun rows sel m => rfl, ?_, ?_, ?_⟩
  · simp only [rotation_matrix, npMeanAll, vsum, demoRotZ]
    norm_num [V3.ext_iff]
  · simp only [specCentroid]
    norm_num [V3.ext_iff]
  · simp only [List.map_cons, List.map_nil, demoRotZ, ne_eq, List.cons.injEq]
    norm_num [V3.ext_iff]

/-! ## Orthogonality of the embedded rotation matrices -/

/-- The matrix built by Rodrigues' formula preserves the squared norm when the
axis is unit and `(ct, st)` lies on the unit circle. -/
theorem rodrigues_preserves_normSq (ct st ux uy uz : ℝ)
    (h1 : ux ^ 2 + uy ^ 2 + uz ^ 2 = 1) (h2 : ct ^ 2 + st ^ 2 = 1) (w : V3) :
    normSq ((rodriguesMat ct st ux uy uz).mulVec w) = normSq w := by
  simp only [normSq, rodriguesMat, M3.mulVec_x, M3.mulVec_y, M3.mulVec_z]
  linear_combination
    (w.x ^ 2 + w.y ^ 2 + w.z ^ 2 - (ux * w.x + uy * w.y + uz * w.z) ^ 2) * h2 +
    (st ^ 2 * (w.x ^ 2 + w.y ^ 2 + w.z ^ 2) +
      (1 - ct) ^ 2 * (ux * w.x + uy * w.y + uz * w.z) ^ 2) * h1

/-- The Rodrigues matrix at `(ct, -st)` undoes the Rodrigues matrix at
`(ct, st)` for a unit axis: the two matrices are transposes and the matrix is
orthogonal. -/
theorem rodrigues_inv_apply (ct st ux uy uz : ℝ)
    (h1 : ux ^ 2 + uy ^ 2 + uz ^ 2 = 1) (h2 : ct ^ 2 + st ^ 2 = 1) (w : V3) :
    (rodriguesMat ct (-st) ux uy uz).mulVec
      ((rodriguesMat ct st ux uy uz).mulVec w) = w := by
  ext
  · simp only [rodriguesMat, M3.mulVec_x, M3.mulVec_y, M3.mulVec_z]
    linear_combination (w.x - ux * (ux * w.x + uy * w.y + uz * w.z)) * h2 +
      (st ^ 2 * w.x + (1 - ct) ^ 2 * ux * (ux * w.x + uy * w.y + uz * w.z)) * h1
  · simp only [rodriguesMat, M3.mulVec_x, M3.mulVec_y, M3.mulVec_z]
    linear_combination (w.y - uy * (ux * w.x + uy * w.y + uz * w.z)) * h2 +
      (st ^ 2 * w.y + (1 - ct) ^ 2 * uy * (ux * w.x + uy * w.y + uz * w.z)) * h1
  · simp only [rodriguesMat, M3.mulVec_x, M3.mulVec_y, M3.mulVec_z]
    linear_combination (w.z - uz * (ux * w.x + uy * w.y + uz * w.z)) * h2 +
      (st ^ 2 * w.z + (1 - ct) ^ 2 * uz * (ux * w.x + uy * w.y + uz * w.z)) * h1

/-- The elemental x rotation preserves the squared norm. -/
theorem rxMat_preserves_normSq (a : ℝ) (w : V3) :
    normSq ((rxMat a).mulVec w) = normSq w := by
  simp only [normSq, rxMat, M3.mulVec_x, M3.mulVec_y, M3.mulVec_z]
  linear_combination (w.y ^ 2 + w.z ^ 2) * Real.sin_sq_add_cos_sq a

/-- The elemental y rotation preserves the squared norm. -/
theorem ryMat_preserves_normSq (b : ℝ) (w : V3) :
    normSq ((ryMat b).mulVec w) = normSq w := by
  simp only [normSq, ryMat, M3.mulVec_x, M3.mulVec_y, M3.mulVec_z]
  linear_combination (w.x ^ 2 + w.z ^ 2) * Real.sin_sq_add_cos_sq b

/-- The elemental z rotation preserves the squared norm. -/
theorem rzMat_preserves_normSq (g : ℝ) (w : V3) :
    normSq ((rzMat g).mulVec w) = normSq w := by
  simp only [normSq, rzMat, M3.mulVec_x, M3.mulVec_y, M3.mulVec_z]
  linear_combination (w.x ^ 2 + w.y ^ 2) * Real.sin_sq_add_cos_sq g

/-- The composed Euler matrix preserves the squared norm. -/
theorem eulerMat_preserves_normSq (a b g : ℝ) (w : V3) :
    normSq (((rzMat g).mul ((ryMat b).mul (rxMat a))).mulVec w) = normSq w := by
  rw [M3.mul_mulVec, M3.mul_mulVec, rzMat_preserves_normSq,
    ryMat_preserves_normSq, rxMat_preserves_normSq]

/-- A norm-preserving matrix applied about a center preserves pairwise
Euclidean distances. -/
theorem center_map_preserves_dist (m : M3)
    (hm : ∀ w, normSq (m.mulVec w) = normSq w) (c p q : V3) :
    eucDist (m.mulVec (p - c) + c) (m.mulVec (q - c) + c) = eucDist p q := by
  unfold eucDist
  have hd : (m.mulVec (p - c) + c) - (m.mulVec (q - c) + c) = m.mulVec (p - q) := by
    ext <;> simp <;> ring
  rw [hd, hm]

/-- A norm-preserving matrix applied about a center preserves the distance of
every point to that center. -/
theorem center_map_preserves_center_dist (m : M3)
    (hm : ∀ w, normSq (m.mulVec w) = normSq w) (c p : V3) :
    eucDist (m.mulVec (p - c) + c) c = eucDist p c := by
  unfold eucDist
  have hd : (m.mulVec (p - c) + c) - c = m.mulVec (p - c) := by
    ext <;> simp
  rw [hd, hm]

/-! ## List-level lemmas: sums, means, indexing -/

theorem vsum_x (l : List V3) : (vsum l).x = (l.map V3.x).sum := by
  induction l with
  | nil => simp [vsum]
  | cons p t ih => simp [vsum, ih]

theorem vsum_y (l : List V3) : (vsum l).y = (l.map V3.y).sum := by
  induction l with
  | nil => simp [vsum]
  | cons p t ih => simp [vsum, ih]

theorem vsum_z (l : List V3) : (vsum l).z = (l.map V3.z).sum := by
  induction l with
  | nil => simp [vsum]
  | cons p t ih => simp [vsum, ih]

/-- On a non-empty list the code's per-coordinate numpy mean agrees with the
spec's centroid. -/
theorem npMean0_eq_specCentroid (xyz : List V3) (hne : xyz ≠ []) :
    npMean0 xyz = some (specCentroid xyz) := by
  cases xyz with
  | nil => exact absurd rfl hne
  | cons p t => simp [npMean0, specCentroid, vsum_x, vsum_y, vsum_z]

/-- Pushing a rotation about a center through a vector sum. -/
theorem vsum_map_center (m : M3) (c : V3) (l : List V3) :
    vsum (l.map fun p => m.mulVec (p - c) + c) =
      m.mulVec (vsum l - V3.nsmul l.length c) + V3.nsmul l.length c := by
  induction l with
  | nil => ext <;> simp [vsum, V3.nsmul]
  | cons p t ih =>
    simp only [List.map_cons, vsum, ih, List.length_cons]
    ext <;> simp [V3.nsmul] <;> push_cast <;> ring

/-- A rotation about the mean of a non-empty list leaves the mean unchanged. -/
theorem npMean0_map_center (m : M3) (c : V3) (p : V3) (t : List V3)
    (hc : npMean0 (p :: t) = some c) :
    npMean0 ((p :: t).map fun q => m.mulVec (q - c) + c) = some c := by
  have hn : (((p :: t).length : ℕ) : ℝ) ≠ 0 := Nat.cast_ne_zero.mpr (by simp)
  simp only [npMean0, Option.some.injEq] at hc
  rw [V3.ext_iff] at hc
  obtain ⟨hx, hy, hz⟩ := hc
  simp only at hx hy hz
  have hsx : (vsum (p :: t)).x = ((p :: t).length : ℝ) * c.x := by
    rw [← hx]; field_simp
  have hsy : (vsum (p :: t)).y = ((p :: t).length : ℝ) * c.y := by
    rw [← hy]; field_simp
  have hsz : (vsum (p :: t)).z = ((p :: t).length : ℝ) * c.z := by
    rw [← hz]; field_simp
  have hfp : ((p :: t).map fun q => m.mulVec (q - c) + c) =
      (m.mulVec (p - c) + c) :: (t.map fun q => m.mulVec (q - c) + c) :=
    List.map_cons _ _ _
  rw [hfp]
  simp only [npMean0, Option.some.injEq]
  rw [← hfp, vsum_map_center, List.length_map]
  rw [V3.ext_iff]
  refine ⟨?_, ?_, ?_⟩ <;>
    simp only [V3.add_x, V3.add_y, V3.add_z, V3.nsmul_x, V3.nsmul_y,
      V3.nsmul_z, M3.mulVec_x, M3.mulVec_y, M3.mulVec_z, V3.sub_x, V3.sub_y, V3.sub_z,
      hsx, hsy, hsz] <;>
    field_simp

/-- Indexing a mapped list below its length. -/
theorem getD_map_of_lt (f : V3 → V3) (l : List V3) (d d' : V3) :
    ∀ i, i < l.length → (l.map f).getD i d = f (l.getD i d') := by
  induction l with
  | nil =>
    intro i h
    simp at h
  | cons p t ih =>
    intro i h
    cases i with
    | zero => rfl
    | succ j =>
      simp only [List.map_cons, List.getD_cons_succ]
      exact ih j (by simpa using h)

/-! ## Claim theorems: kernels -/

/-- Claim C4: for every non-empty point set, unit axis and angle, the
axis-angle kernel builds the rotation matrix by Rodrigues' formula with
`c = cos angle`, `s = sin angle` (the spec's entry-by-entry matrix,
`specRodrigues`) and returns `R (p - center) + center` for each point, the
center being the per-coordinate centroid when not caller-supplied. -/
theorem claim_C4_axis_angle_kernel (xyz : List V3) (hne : xyz ≠ []) (axis : V3)
    (hu : normSq axis = 1) (angle : ℝ) :
    rot_xyz_around_axis xyz axis angle none =
      some (xyz.map fun p =>
        (specRodrigues axis angle).mulVec (p - specCentroid xyz) + specCentroid xyz) := by
  have hmean := npMean0_eq_specCentroid xyz hne
  have hmat : rodriguesMat (Real.cos angle) (Real.sin angle) axis.x axis.y axis.z =
      specRodrigues axis angle := rfl
  simp only [rot_xyz_around_axis, hmean, hmat]

/-- Claim C4 witness: the kernel theorem instantiated at a concrete one-point
set with the unit z axis. -/
theorem claim_C4_axis_angle_kernel_witness :
    ([(⟨1, 2, 3⟩ : V3)] ≠ []) ∧ normSq ⟨0, 0, 1⟩ = 1 ∧
    rot_xyz_around_axis [⟨1, 2, 3⟩] ⟨0, 0, 1⟩ 1 none =
      some ([⟨1, 2, 3⟩].map fun p =>
        (specRodrigues ⟨0, 0, 1⟩ 1).mulVec (p - specCentroid [⟨1, 2, 3⟩]) +
          specCentroid [⟨1, 2, 3⟩]) :=
  ⟨by simp, by norm_num [normSq],
    claim_C4_axis_angle_kernel [⟨1, 2, 3⟩] (by simp) ⟨0, 0, 1⟩ (by norm_num [normSq]) 1⟩

/-- Claim C3 counterexample: with a selection matching zero rows, the
axis-angle transform does not signal the defined empty-selection error; the
centroid computation is undefined (numpy NaN) and the failure that surfaces
is a generic numpy shape error. -/
theorem claim_C3_counterexample :
    rot_axis [] selTrue ⟨0, 0, 1⟩ 1 ≠ Except.error PyError.emptySelection ∧
    rot_axis [] selTrue ⟨0, 0, 1⟩ 1 = Except.error PyError.npShapeError := by
  constructor
  · intro h
    rw [show rot_axis [] selTrue ⟨0, 0, 1⟩ 1 =
      Except.error PyError.npShapeError from rfl] at h
    simp at h
  · rfl

/-- Claim C3 amended: for every selection matching zero rows, the rotation
transforms do not raise a defined empty-selection error; the axis-angle and
Euler paths compute the undefined (NaN) numpy mean and fail with a generic
numpy shape error (the matrix path fails earlier with its `NameError`), and
in every case the error propagates before any write, so the storage is left
unchanged. -/
theorem claim_C3_empty_selection_amended (rows : List V3) (sel : ℕ → Bool)
    (h : dbGet rows sel = []) (axis : V3) (angle alpha beta gamma : ℝ) (m : M3) :
    rot_axis rows sel axis angle = Except.error PyError.npShapeError ∧
    rot_euler rows sel alpha beta gamma = Except.error PyError.npShapeError ∧
    rot_mat rows sel m = Except.error PyError.nameErrorRotationMatrix ∧
    rot_axis rows sel axis angle ≠ Except.error PyError.emptySelection ∧
    rot_euler rows sel alpha beta gamma ≠ Except.error PyError.emptySelection := by
  have ha : rot_axis rows sel axis angle = Except.error PyError.npShapeError := by
    simp only [rot_axis, h, rot_xyz_around_axis, npMean0]
  have he : rot_euler rows sel alpha beta gamma = Except.error PyError.npShapeError := by
    simp only [rot_euler, h, _rotation_euler, npMean0]
  refine ⟨ha, he, rfl, ?_, ?_⟩
  · rw [ha]; simp
  · rw [he]; simp

/-- Claim C3 amended witness: the amended theorem instantiated at the empty
storage with the all-rows selection. -/
theorem claim_C3_empty_selection_amended_witness :
    dbGet [] selTrue = [] ∧
    rot_axis [] selTrue ⟨0, 0, 1⟩ 2 = Except.error PyError.npShapeError ∧
    rot_euler [] selTrue 1 2 3 = Except.error PyError.npShapeError := by
  have h := claim_C3_empty_selection_amended [] selTrue rfl ⟨0, 0, 1⟩ 2 1 2 3 demoRotZ
  exact ⟨rfl, h.1, h.2.1⟩

/-- Claim C9: the spec says every transform writes back exactly as many rows
as it read, in order, leaving non-selected rows untouched. The translation
path does (shown here on five concrete rows), but the matrix-rotation path
never reaches its write: `rot_mat` raises `NameError` on the undefined name
`_rotation_matrix`, so five rows are read and none are written. -/
theorem claim_C9_write_back (outcome : List V3) :
    (dbGet rows5 selTrue).length = 5 ∧
    translation rows5 selTrue ⟨1, 0, 0⟩ =
      Except.ok [⟨2, 0, 0⟩, ⟨3, 0, 0⟩, ⟨4, 0, 0⟩, ⟨5, 0, 0⟩, ⟨6, 0, 0⟩] ∧
    rot_mat rows5 selTrue demoRotZ = Except.error PyError.nameErrorRotationMatrix ∧
    rot_mat rows5 selTrue demoRotZ ≠ Except.ok outcome := by
  refine ⟨rfl, ?_, rfl, ?_⟩
  · simp only [translation, dbGet, dbGetAux, dbUpdate, dbUpdateAux, rows5, selTrue,
      List.map_cons, List.map_nil, if_true]
    norm_num [V3.ext_iff]
  · intro h
    rw [show rot_mat rows5 selTrue demoRotZ =
      Except.error PyError.nameErrorRotationMatrix from rfl] at h
    exact Except.noConfusion h

/-- Claim C5: the Euler kernel composes the elemental rotations in the fixed
order `R = Rz gamma * (Ry beta * Rx alpha)` about the centroid of the input
points; at `alpha = pi/2, beta = 0, gamma = 0` on a point set with centroid
`(0,0,0)`, the point `(1,0,0)` is fixed and `(0,1,0)` maps to `(0,0,1)`. -/
theorem claim_C5_euler_composition (xyz : List V3) (hne : xyz ≠ []) :
    (∀ (alpha beta gamma : ℝ) (c : V3), npMean0 xyz = some c →
      _rotation_euler xyz alpha beta gamma =
        some (xyz.map fun p =>
          ((rzMat gamma).mul ((ryMat beta).mul (rxMat alpha))).mulVec (p - c) + c)) ∧
    (npMean0 xyz = some 0 →
      ∃ out, _rotation_euler xyz (Real.pi / 2) 0 0 = some out ∧
        out.length = xyz.length ∧
        ∀ i, i < xyz.length →
          (xyz.getD i 0 = ⟨1, 0, 0⟩ → out.getD i 0 = ⟨1, 0, 0⟩) ∧
          (xyz.getD i 0 = ⟨0, 1, 0⟩ → out.getD i 0 = ⟨0, 0, 1⟩)) := by
  have hgen : ∀ (alpha beta gamma : ℝ) (c : V3), npMean0 xyz = some c →
      _rotation_euler xyz alpha beta gamma =
        some (xyz.map fun p =>
          ((rzMat gamma).mul ((ryMat beta).mul (rxMat alpha))).mulVec (p - c) + c) := by
    intro alpha beta gamma c hc
    simp only [_rotation_euler, hc]
    rfl
  refine ⟨hgen, fun h0 => ?_⟩
  refine ⟨xyz.map fun p =>
    ((rzMat 0).mul ((ryMat 0).mul (rxMat (Real.pi / 2)))).mulVec (p - 0) + 0,
    hgen _ _ _ _ h0, by simp, ?_⟩
  intro i hi
  rw [getD_map_of_lt _ xyz 0 0 i hi]
  have hfval : ∀ p : V3,
      ((rzMat 0).mul ((ryMat 0).mul (rxMat (Real.pi / 2)))).mulVec (p - 0) + 0 =
        ⟨p.x, -p.z, p.y⟩ := by
    intro p
    ext <;>
      simp [rzMat, ryMat, rxMat, M3.mul, Real.cos_pi_div_two, Real.sin_pi_div_two]
  rw [hfval]
  constructor
  · intro hp
    rw [hp]
    norm_num
  · intro hp
    rw [hp]
    norm_num

/-- Claim C6: any rotation applied through the axis-angle kernel (unit axis,
any center argument: caller-supplied or the default centroid) or the Euler
kernel preserves pairwise Euclidean distances between the points and the
distance of every point to its rotation center, exactly over the reals. `c`
is the axis-angle rotation center (the supplied one, or the centroid when the
caller supplies none) and `cE` the Euler kernel's centroid center. -/
theorem claim_C6_rigidity (xyz : List V3) (hne : xyz ≠ []) (axis : V3)
    (hu : normSq axis = 1) (angle alpha beta gamma : ℝ)
    (center : Option V3) (c : V3)
    (hrc : center = some c ∨ center = none ∧ npMean0 xyz = some c)
    (cE : V3) (hcE : npMean0 xyz = some cE) (outA outE : List V3)
    (hA : rot_xyz_around_axis xyz axis angle center = some outA)
    (hE : _rotation_euler xyz alpha beta gamma = some outE) :
    (∀ i j, i < xyz.length → j < xyz.length →
      eucDist (outA.getD i 0) (outA.getD j 0) = eucDist (xyz.getD i 0) (xyz.getD j 0) ∧
      eucDist (outE.getD i 0) (outE.getD j 0) = eucDist (xyz.getD i 0) (xyz.getD j 0)) ∧
    (∀ i, i < xyz.length →
      eucDist (outA.getD i 0) c = eucDist (xyz.getD i 0) c ∧
      eucDist (outE.getD i 0) cE = eucDist (xyz.getD i 0) cE) := by
  have h1 : axis.x ^ 2 + axis.y ^ 2 + axis.z ^ 2 = 1 := hu
  have hmA : ∀ w, normSq ((rodriguesMat (Real.cos angle) (Real.sin angle)
      axis.x axis.y axis.z).mulVec w) = normSq w :=
    fun w => rodrigues_preserves_normSq _ _ _ _ _ h1 (Real.cos_sq_add_sin_sq angle) w
  have hmE : ∀ w, normSq
      (((rzMat gamma).mul ((ryMat beta).mul (rxMat alpha))).mulVec w) = normSq w :=
    fun w => eulerMat_preserves_normSq alpha beta gamma w
  have hA' : outA = xyz.map fun p => (rodriguesMat (Real.cos angle) (Real.sin angle)
      axis.x axis.y axis.z).mulVec (p - c) + c := by
    rcases hrc with h | ⟨h, hc⟩
    · subst h
      simp only [rot_xyz_around_axis, Option.some.injEq] at hA
      exact hA.symm
    · subst h
      simp only [rot_xyz_around_axis, hc, Option.some.injEq] at hA
      exact hA.symm
  have hE' : outE = xyz.map fun p =>
      ((rzMat gamma).mul ((ryMat beta).mul (rxMat alpha))).mulVec (p - cE) + cE := by
    simp only [_rotation_euler, hcE, Option.some.injEq] at hE
    exact hE.symm
  subst hA'
  subst hE'
  constructor
  · intro i j hi hj
    rw [getD_map_of_lt _ xyz 0 0 i hi, getD_map_of_lt _ xyz 0 0 j hj,
      getD_map_of_lt _ xyz 0 0 i hi, getD_map_of_lt _ xyz 0 0 j hj]
    exact ⟨center_map_preserves_dist _ hmA c _ _, center_map_preserves_dist _ hmE cE _ _⟩
  · intro i hi
    rw [getD_map_of_lt _ xyz 0 0 i hi, getD_map_of_lt _ xyz 0 0 i hi]
    exact ⟨center_map_preserves_center_dist _ hmA c _,
      center_map_preserves_center_dist _ hmE cE _⟩

/-- Claim C8: rotating a non-empty point set by `(axis, angle)` about an
explicit center and then by `(axis, -angle)` about the same center returns
the original points exactly. -/
theorem claim_C8_round_trip (xyz : List V3) (hne : xyz ≠ []) (axis : V3)
    (hu : normSq axis = 1) (angle : ℝ) (c : V3) (out : List V3)
    (h : rot_xyz_around_axis xyz axis angle (some c) = some out) :
    rot_xyz_around_axis out axis (-angle) (some c) = some xyz := by
  have h1 : axis.x ^ 2 + axis.y ^ 2 + axis.z ^ 2 = 1 := hu
  have h2 := Real.cos_sq_add_sin_sq angle
  simp only [rot_xyz_around_axis, Option.some.injEq] at h ⊢
  rw [← h]
  simp only [Real.cos_neg, Real.sin_neg, List.map_map, Function.comp]
  have hpt : ∀ p : V3,
      (rodriguesMat (Real.cos angle) (-Real.sin angle) axis.x axis.y axis.z).mulVec
        ((rodriguesMat (Real.cos angle) (Real.sin angle) axis.x axis.y
          axis.z).mulVec (p - c) + c - c) + c = p := by
    intro p
    have hcc : (rodriguesMat (Real.cos angle) (Real.sin angle) axis.x axis.y
        axis.z).mulVec (p - c) + c - c =
        (rodriguesMat (Real.cos angle) (Real.sin angle) axis.x axis.y
          axis.z).mulVec (p - c) := by
      ext <;> simp
    rw [hcc, rodrigues_inv_apply _ _ _ _ _ h1 h2]
    ext <;> simp
  have hmap : ∀ l : List V3, (l.map fun p =>
      (rodriguesMat (Real.cos angle) (-Real.sin angle) axis.x axis.y axis.z).mulVec
        ((rodriguesMat (Real.cos angle) (Real.sin angle) axis.x axis.y
          axis.z).mulVec (p - c) + c - c) + c) = l := by
    intro l
    induction l with
    | nil => rfl
    | cons q tl ih => rw [List.map_cons, ih, hpt q]
  exact hmap xyz

/-- Claim C10: the axis-angle kernel with default center and the Euler kernel
each leave the per-coordinate mean of a non-empty point set unchanged,
exactly over the reals. -/
theorem claim_C10_centroid_fixed (xyz : List V3) (hne : xyz ≠ []) (axis : V3)
    (hu : normSq axis = 1) (angle alpha beta gamma : ℝ) :
    (∀ out, rot_xyz_around_axis xyz axis angle none = some out →
      npMean0 out = npMean0 xyz) ∧
    (∀ out, _rotation_euler xyz alpha beta gamma = some out →
      npMean0 out = npMean0 xyz) := by
  cases xyz with
  | nil => exact absurd rfl hne
  | cons p t =>
    obtain ⟨c, hc⟩ : ∃ c, npMean0 (p :: t) = some c := ⟨_, rfl⟩
    constructor
    · intro out h
      simp only [rot_xyz_around_axis, hc, Option.some.injEq] at h
      rw [← h, hc]
      exact npMean0_map_center _ c p t hc
    · intro out h
      simp only [_rotation_euler, hc, Option.some.injEq] at h
      rw [← h, hc]
      exact npMean0_map_center _ c p t hc

/-- Claim C5 witness: the Euler composition theorem instantiated at the
concrete zero-centroid set `demoTri`, which contains both probe points. -/
theorem claim_C5_euler_composition_witness :
    (demoTri ≠ []) ∧ npMean0 demoTri = some 0 ∧
    (∃ out, _rotation_euler demoTri (Real.pi / 2) 0 0 = some out ∧
      out.length = demoTri.length ∧
      ∀ i, i < demoTri.length →
        (demoTri.getD i 0 = ⟨1, 0, 0⟩ → out.getD i 0 = ⟨1, 0, 0⟩) ∧
        (demoTri.getD i 0 = ⟨0, 1, 0⟩ → out.getD i 0 = ⟨0, 0, 1⟩)) := by
  have hmean : npMean0 demoTri = some 0 := by
    norm_num [npMean0, demoTri, vsum, V3.ext_iff]
  exact ⟨by simp [demoTri], hmean,
    (claim_C5_euler_composition demoTri (by simp [demoTri])).2 hmean⟩

/-- Claim C6 witness: rigidity at the concrete set `demoTri` with the unit z
axis, angle 1, a caller-supplied center `(5, 7, 9)` for the axis-angle kernel
and Euler angles `(1, 2, 3)` (centroid center `0`). -/
theorem claim_C6_rigidity_witness :
    ∃ outA outE,
      rot_xyz_around_axis demoTri ⟨0, 0, 1⟩ 1 (some ⟨5, 7, 9⟩) = some outA ∧
      _rotation_euler demoTri 1 2 3 = some outE ∧
      (∀ i j, i < demoTri.length → j < demoTri.length →
        eucDist (outA.getD i 0) (outA.getD j 0) =
          eucDist (demoTri.getD i 0) (demoTri.getD j 0) ∧
        eucDist (outE.getD i 0) (outE.getD j 0) =
          eucDist (demoTri.getD i 0) (demoTri.getD j 0)) ∧
      (∀ i, i < demoTri.length →
        eucDist (outA.getD i 0) ⟨5, 7, 9⟩ = eucDist (demoTri.getD i 0) ⟨5, 7, 9⟩ ∧
        eucDist (outE.getD i 0) 0 = eucDist (demoTri.getD i 0) 0) := by
  have hmean : npMean0 demoTri = some 0 := by
    norm_num [npMean0, demoTri, vsum, V3.ext_iff]
  have h := claim_C6_rigidity demoTri (by simp [demoTri]) ⟨0, 0, 1⟩
    (by norm_num [normSq]) 1 1 2 3 (some ⟨5, 7, 9⟩) ⟨5, 7, 9⟩ (Or.inl rfl)
    0 hmean _ _ rfl rfl
  exact ⟨_, _, rfl, rfl, h.1, h.2⟩

/-- Claim C8 witness: the round trip at a concrete one-point set, unit z axis,
angle 1 and explicit center the origin. -/
theorem claim_C8_round_trip_witness :
    ∃ out, rot_xyz_around_axis [(⟨1, 2, 3⟩ : V3)] ⟨0, 0, 1⟩ 1 (some ⟨0, 0, 0⟩) =
        some out ∧
      rot_xyz_around_axis out ⟨0, 0, 1⟩ (-1) (some ⟨0, 0, 0⟩) = some [⟨1, 2, 3⟩] := by
  refine ⟨_, rfl, ?_⟩
  exact claim_C8_round_trip [⟨1, 2, 3⟩] (by simp) ⟨0, 0, 1⟩ (by norm_num [normSq]) 1
    ⟨0, 0, 0⟩ _ rfl

/-- Claim C10 witness: the centroid of `demoTri` is unchanged by the
axis-angle kernel (unit z axis, angle 1) and by the Euler kernel at
`(1, 2, 3)`. -/
theorem claim_C10_centroid_fixed_witness :
    ∃ outA outE,
      rot_xyz_around_axis demoTri ⟨0, 0, 1⟩ 1 none = some outA ∧
      npMean0 outA = npMean0 demoTri ∧
      _rotation_euler demoTri 1 2 3 = some outE ∧
      npMean0 outE = npMean0 demoTri := by
  obtain ⟨h1, h2⟩ := claim_C10_centroid_fixed demoTri (by simp [demoTri]) ⟨0, 0, 1⟩
    (by norm_num [normSq]) 1 1 2 3
  exact ⟨_, _, rfl, h1 _ rfl, rfl, h2 _ rfl⟩
